import Mathlib

/-!
Shallow embedding of the igo-unidic feature-tuple classifier
(src/src/lib.rs).  The library decodes the comma-separated feature
tuple of a morpheme produced by the igo tagger into a typed
`Morpheme` record: word class, subtypes, conjugation, syllable row,
etymological origin and metadata fields.

Notes on the embedding:
* The copy of the source renders every byte of a multi-byte UTF-8
  string literal as a question mark.  The Japanese tag spellings are
  restored here from the UniDic tag schema; every restored literal has
  exactly the character count of the redacted run, and all claims
  settled below depend only on the distinctness of the literals, on
  the ASCII literals that survived intact (the comma, the star and the
  hyphen) and on the arm structure of the matches, never on the exact
  spelling of a redacted literal.
* Rust panics are modelled explicitly: unchecked indexing
  (`value[i]` on a too-short vector) becomes `Fault.idxOut i`, and an
  `Err` result that `Morpheme::from` unwraps becomes `Fault.unrec`
  carrying the dimension text and the offending tag of the
  `format!` message.  Both abort classification in the source.
* Rust `str::split` on a one-character pattern is modelled by an
  executable character splitter `splitCharL` with the same semantics
  (the split of the empty string is one empty piece, adjacent
  delimiters yield empty pieces).
-/

namespace IgoUnidic

/-- A fault that aborts classification: an out-of-bounds tuple index
(a Rust panic) or an unrecognized tag (a `format!` error message that
`Morpheme::from` unwraps, also a panic).  `unrec` carries the fixed
message text of the dimension and the offending tag. -/
inductive Fault where
  | idxOut (i : Nat)
  | unrec (dimension tag : String)
deriving DecidableEq

/-- Result type of the fallible classification steps. -/
abbrev Res (α : Type) : Type := Except Fault α

instance {ε α : Type} [DecidableEq ε] [DecidableEq α] : DecidableEq (Except ε α) := fun a b =>
  match a, b with
  | .ok x, .ok y =>
    if h : x = y then .isTrue (by rw [h]) else .isFalse (by simp [h])
  | .ok _, .error _ => .isFalse (by simp)
  | .error _, .ok _ => .isFalse (by simp)
  | .error e, .error f =>
    if h : e = f then .isTrue (by rw [h]) else .isFalse (by simp [h])

/-- `value[i]` on the feature vector: `.ok` the element when present,
an index fault (Rust panic) when the vector is too short. -/
def idx (v : List String) (i : Nat) : Res String :=
  match v.get? i with
  | some s => .ok s
  | none => .error (.idxOut i)

/-- Rust `str::contains` for a one-character pattern. -/
def hasChar (c : Char) : List Char → Bool
  | [] => false
  | x :: xs => if x = c then true else hasChar c xs

/-- Rust `str::split` on a one-character pattern: the list of pieces
between occurrences of the character.  Always at least one piece. -/
def splitCharL (c : Char) : List Char → List (List Char)
  | [] => [[]]
  | x :: xs =>
    if x = c then [] :: splitCharL c xs
    else
      match splitCharL c xs with
      | [] => [[x]]
      | y :: ys => (x :: y) :: ys

/-- String-level wrapper of `splitCharL`. -/
def splitStr (s : String) (c : Char) : List String :=
  (splitCharL c s.data).map String.mk

/-- String-level wrapper of `hasChar`. -/
def strContains (s : String) (c : Char) : Bool :=
  hasChar c s.data

/-- The secondary composite delimiter of the older dictionary schema,
a single multi-byte character in the source (redacted there); only
its distinctness from the ASCII hyphen matters below. -/
def delimB : Char := '－'

/-- `split_type` (src/src/lib.rs lines 438-445): split a composite
field on the hyphen when one occurs, otherwise on the secondary
delimiter, and return the first two pieces, absent pieces defaulting
to the empty string. -/
def split_type (inp : String) : String × String :=
  let s := if strContains inp '-' then splitStr inp '-' else splitStr inp delimB
  (s.headD "", (s.drop 1).headD "")

/-- `str_or_empty` (lines 447-453): the field at `pos`, or the empty
string when the vector is too short. -/
def str_or_empty (vec : List String) (pos : Nat) : String :=
  if vec.length > pos then (vec.get? pos).getD "" else ""

/-- Splitting of the raw feature string into the feature tuple
(line 43: `feature.split(',')`). -/
def featureSplit (s : String) : List String :=
  splitStr s ','

/-! ## The enumerations (lines 78-101, 134-149, 249-334, 374-431) -/

/-- Single-valued conjugation-kind dimension (lines 84-87). -/
inductive ConjungationKind where
  | None
deriving DecidableEq

/-- The ten conjugation forms (lines 89-101). -/
inductive ConjungationForm where
  | None
  | Plain
  | Imperative
  | Negative
  | Attributive
  | Continuous
  | Conditional
  | Stem
  | Realis
  | Kugohou
deriving DecidableEq

/-- The fifteen syllable rows (lines 374-391). -/
inductive SyllableRow where
  | G
  | K
  | M
  | A
  | R
  | S
  | Z
  | T
  | D
  | B
  | H
  | P
  | N
  | Wa
  | Y
deriving DecidableEq

/-- Etymological origin (lines 417-421). -/
inductive Origin where
  | China
  | Japan
deriving DecidableEq

/-- Noun subtypes (lines 249-256). -/
inductive NounType where
  | Common
  | Proper
  | Numeral
  | Suffix
  | Jodoushi
deriving DecidableEq

/-- Particle subtypes (lines 275-283). -/
inductive ParticleType where
  | Connecting
  | SentenceEnding
  | CaseMaking
  | Conjungtion
  | Adverbial
  | Nominalizing
deriving DecidableEq

/-- Adjective subtypes (lines 303-307). -/
inductive AdjectiveType where
  | I
  | Na
deriving DecidableEq

/-- Verb subtypes (lines 323-334); `Auxilary` carries the raw second
half of the composite in field 4.  `IchidanEruConjungation` is
declared in the source but constructed nowhere. -/
inductive VerbType where
  | Auxilary (s : String)
  | Godan (r : SyllableRow)
  | Ichidan (r : SyllableRow)
  | IchidanEruConjungation
  | IrrWrittenLang
  | Suru
  | Kuru
  | IrregRu
  | IrregNu
deriving DecidableEq

/-- Word classes (lines 134-149). -/
inductive WordClass where
  | Particle (t : ParticleType)
  | Verb (t : VerbType)
  | Adjective (t : AdjectiveType)
  | Adverb
  | Noun (t : NounType)
  | Pronoun
  | Interjection
  | Symbol
  | Conjungtion
  | Suffix
  | Prefix
  | PreNoun
  | Space
deriving DecidableEq

/-- Conjugation record (lines 78-82). -/
structure Conjungation where
  kind : ConjungationKind
  form : ConjungationForm
deriving DecidableEq

/-- Input of the builder: one element of the igo tagger output, with
the raw feature string (the surface and start are passed through). -/
structure IgoMorpheme where
  surface : String
  feature : String
  start : Nat
deriving DecidableEq

/-- The decoded output record (lines 29-39). -/
structure Morpheme where
  surface : String
  basic : String
  word_class : WordClass
  conjungation : Conjungation
  origin : Option Origin
  reading : String
  lexeme : String
  start : Nat
deriving DecidableEq

/-! ## Leaf classifiers

Each Rust `TryFrom` that matches a single tag string is split into
the index access plus a pure tag-level function, bound with
`Except.bind`.  A Rust match over string literals is first-match-wins
over an ordered list of arms, so each tag-level match is embedded as
an ordered spelling table consulted by `tagLookup`; the rows appear
in source arm order, and an arm with several spellings contributes
one row per spelling. -/

/-- First-match lookup in an ordered spelling table: the semantics of
a Rust match over string literals. -/
def tagLookup {α : Type} : List (String × α) → String → Option α
  | [], _ => none
  | (k, v) :: rest, t => if t = k then some v else tagLookup rest t

/-- Shared leaf-classifier shape: a spelling either classifies by the
table or yields the unrecognized-tag error of the dimension. -/
def classify {α : Type} (table : List (String × α)) (dim : String) (t : String) : Res α :=
  match tagLookup table t with
  | some v => .ok v
  | none => .error (.unrec dim t)

/-- Tag table of `ConjungationKind::try_from` (lines 103-111): the
match on `value[4]` has a single wildcard arm returning `None`
(the error arm is commented out in the source). -/
def ConjungationKind.ofTag (_t : String) : Res ConjungationKind :=
  .ok .None

/-- `ConjungationKind::try_from`: reads `value[4]` (a fault when the
tuple is shorter) and always classifies as `None`. -/
def ConjungationKind.tryFrom (value : List String) : Res ConjungationKind :=
  (idx value 4).bind ConjungationKind.ofTag

/-- Spelling table of `ConjungationForm::try_from` (lines 117-130),
on the first half of the composite in field 5.  The volitional marker
(the arm glossed `wtf is this?` in the source) normalizes to `None`. -/
def ConjungationForm.table : List (String × ConjungationForm) :=
  [("*", .None),
   ("終止形", .Plain),
   ("命令形", .Imperative),
   ("未然形", .Negative),
   ("連体形", .Attributive),
   ("連用形", .Continuous),
   ("仮定形", .Conditional),
   ("語幹", .Stem),
   ("已然形", .Realis),
   ("意志推量形", .None),
   ("ク語法", .Kugohou)]

/-- Tag-level classification of the conjugation form. -/
def ConjungationForm.ofTag (t : String) : Res ConjungationForm :=
  classify ConjungationForm.table "conjungation form not found" t

/-- `ConjungationForm::try_from` (lines 113-132): reads `value[5]`,
splits the composite and classifies its first half. -/
def ConjungationForm.tryFrom (value : List String) : Res ConjungationForm :=
  (idx value 5).bind (fun v5 => ConjungationForm.ofTag (split_type v5).1)

/-- Spelling table of `NounType::try_from` (lines 261-268), on
field 1; the numeral arm has two spellings. -/
def NounType.table : List (String × NounType) :=
  [("普通名詞", .Common),
   ("固有名詞", .Proper),
   ("数詞", .Numeral),
   ("数", .Numeral),
   ("接尾", .Suffix),
   ("助動詞語幹", .Jodoushi)]

/-- Tag-level classification of the noun subtype. -/
def NounType.ofTag (t : String) : Res NounType :=
  classify NounType.table "Nountype not found" t

/-- `NounType::try_from` (lines 258-270). -/
def NounType.tryFrom (value : List String) : Res NounType :=
  (idx value 1).bind NounType.ofTag

/-- Spelling table of `ParticleType::try_from` (lines 288-296), on
field 1. -/
def ParticleType.table : List (String × ParticleType) :=
  [("係助詞", .Connecting),
   ("終助詞", .SentenceEnding),
   ("格助詞", .CaseMaking),
   ("接続助詞", .Conjungtion),
   ("副助詞", .Adverbial),
   ("準体助詞", .Nominalizing)]

/-- Tag-level classification of the particle subtype. -/
def ParticleType.ofTag (t : String) : Res ParticleType :=
  classify ParticleType.table "particle not found" t

/-- `ParticleType::try_from` (lines 285-298). -/
def ParticleType.tryFrom (value : List String) : Res ParticleType :=
  (idx value 1).bind ParticleType.ofTag

/-- Spelling table of `AdjectiveType::try_from` (lines 312-316), on
field 0 itself. -/
def AdjectiveType.table : List (String × AdjectiveType) :=
  [("形容詞", .I),
   ("形状詞", .Na)]

/-- Tag-level classification of the adjective subtype. -/
def AdjectiveType.ofTag (t : String) : Res AdjectiveType :=
  classify AdjectiveType.table "adjective not found" t

/-- `AdjectiveType::try_from` (lines 309-318). -/
def AdjectiveType.tryFrom (value : List String) : Res AdjectiveType :=
  (idx value 0).bind AdjectiveType.ofTag

/-- Spelling table of `SyllableRow::try_from` (lines 393-415); rows
in source arm order. -/
def SyllableRow.table : List (String × SyllableRow) :=
  [("ガ行", .G),
   ("カ行", .K),
   ("マ行", .M),
   ("ア行", .A),
   ("ラ行", .R),
   ("サ行", .S),
   ("ザ行", .Z),
   ("タ行", .T),
   ("ダ行", .D),
   ("ハ行", .H),
   ("バ行", .B),
   ("パ行", .P),
   ("ナ行", .N),
   ("ワア行", .Wa),
   ("ヤ行", .Y)]

/-- `SyllableRow::try_from`, on the second half of the composite in
field 4. -/
def SyllableRow.tryFrom (t : String) : Res SyllableRow :=
  classify SyllableRow.table "Syllable ending not found" t

/-- Shape of one arm of the `VerbType::parse_general` match
(lines 352-366): the Godan and Ichidan arms additionally classify the
second composite half as a syllable row, the others are constant. -/
inductive VerbArm where
  | godan
  | ichidan
  | const (v : VerbType)
deriving DecidableEq

/-- Conjugation-group spelling table of `VerbType::parse_general`,
rows in source arm order; written-register spellings alias to the
same arm as their plain counterpart. -/
def VerbType.groupTable : List (String × VerbArm) :=
  [("五段", .godan),
   ("文語上二段", .godan),
   ("文語四段", .godan),
   ("文語下二段", .godan),
   ("上二段", .godan),
   ("一段", .ichidan),
   ("上一段", .ichidan),
   ("下一段", .ichidan),
   ("サ行変格", .const .Suru),
   ("文語サ行変格", .const .Suru),
   ("カ行変格", .const .Kuru),
   ("ラ行変格", .const .IrregRu),
   ("文語ラ行変格", .const .IrregRu),
   ("ナ行変格", .const .IrregNu),
   ("文語ナ行変格", .const .IrregNu),
   ("文語カ行変格", .const .IrrWrittenLang),
   ("文語下一段", .const .IrrWrittenLang)]

/-- Dispatch of `VerbType::parse_general` on the two halves `g` and
`d` of the composite in field 4. -/
def VerbType.ofGroup (g d : String) : Res VerbType :=
  match tagLookup VerbType.groupTable g with
  | some .godan => (SyllableRow.tryFrom d).map VerbType.Godan
  | some .ichidan => (SyllableRow.tryFrom d).map VerbType.Ichidan
  | some (.const v) => .ok v
  | none => .error (.unrec "Verbtype not found" g)

/-- `VerbType::parse_general` (lines 349-368): split the composite
and dispatch on its first half. -/
def VerbType.parse_general (verb_type : String) : Res VerbType :=
  VerbType.ofGroup (split_type verb_type).1 (split_type verb_type).2

/-- `VerbType::try_from` (lines 336-347): reads `value[4]` first
(a fault when absent), then dispatches on field 0: the auxiliary
spelling takes the raw second half of the composite unvalidated, the
main-verb spelling goes through `parse_general`. -/
def VerbType.tryFrom (value : List String) : Res VerbType :=
  (idx value 4).bind (fun verb_type =>
    (idx value 0).bind (fun v0 =>
      if v0 = "助動詞" then .ok (.Auxilary (split_type verb_type).2)
      else if v0 = "動詞" then VerbType.parse_general verb_type
      else .error (.unrec "Verb not found" v0)))

/-- Shape of one arm of the `WordClass::try_from` match
(lines 227-242): four arms re-consume the tuple through a subtype
classifier, the rest are constant variants. -/
inductive WordArm where
  | particle
  | adjective
  | verb
  | noun
  | const (w : WordClass)
deriving DecidableEq

/-- Word-class spelling table (lines 227-242), rows in source arm
order; the adjective, verb and symbol arms each have two spellings. -/
def WordClass.table : List (String × WordArm) :=
  [("助詞", .particle),
   ("形容詞", .adjective),
   ("形状詞", .adjective),
   ("助動詞", .verb),
   ("動詞", .verb),
   ("代名詞", .const .Pronoun),
   ("感動詞", .const .Interjection),
   ("補助記号", .const .Symbol),
   ("記号", .const .Symbol),
   ("接続詞", .const .Conjungtion),
   ("接尾辞", .const .Suffix),
   ("接頭辞", .const .Prefix),
   ("副詞", .const .Adverb),
   ("空白", .const .Space),
   ("名詞", .noun),
   ("連体詞", .const .PreNoun)]

/-- Dispatch of one word-class arm against the tuple. -/
def WordClass.dispatch (value : List String) : WordArm → Res WordClass
  | .particle => (ParticleType.tryFrom value).map WordClass.Particle
  | .adjective => (AdjectiveType.tryFrom value).map WordClass.Adjective
  | .verb => (VerbType.tryFrom value).map WordClass.Verb
  | .noun => (NounType.tryFrom value).map WordClass.Noun
  | .const w => .ok w

/-- `WordClass::try_from` (lines 224-244): dispatch on field 0; the
subtype classifiers re-consume the tuple. -/
def WordClass.tryFrom (value : List String) : Res WordClass :=
  (idx value 0).bind (fun v0 =>
    match tagLookup WordClass.table v0 with
    | some arm => WordClass.dispatch value arm
    | none => .error (.unrec "wc not found" v0))

/-- Spelling table of `Origin::from_string` (lines 423-431). -/
def Origin.table : List (String × Origin) :=
  [("漢", .China),
   ("和", .Japan)]

/-- `Origin::from_string`: total, `none` on any unrecognized value. -/
def Origin.from_string (s : String) : Option Origin :=
  tagLookup Origin.table s

/-- `impl From<IgoMorpheme> for Morpheme` (lines 41-76): split the
feature string, run the three mandatory classifiers in source order
(each `unwrap` aborts on the first fault), then fill the optional
origin and the best-effort metadata fields. -/
def Morpheme.fromIgo (igo : IgoMorpheme) : Res Morpheme :=
  match WordClass.tryFrom (featureSplit igo.feature) with
  | .error e => .error e
  | .ok word_class =>
  match ConjungationForm.tryFrom (featureSplit igo.feature) with
  | .error e => .error e
  | .ok form =>
  match ConjungationKind.tryFrom (featureSplit igo.feature) with
  | .error e => .error e
  | .ok kind =>
    .ok { surface := igo.surface,
          basic := str_or_empty (featureSplit igo.feature) 6,
          word_class := word_class,
          conjungation := { kind := kind, form := form },
          origin :=
            if 12 < (featureSplit igo.feature).length then
              Origin.from_string (((featureSplit igo.feature).get? 12).getD "")
            else none,
          reading := str_or_empty (featureSplit igo.feature) 9,
          lexeme := str_or_empty (featureSplit igo.feature) 10,
          start := igo.start }

/-! ## Helper lemmas -/

theorem res_bind_ok {α β : Type} (a : α) (f : α → Res β) :
    Except.bind (Except.ok a) f = f a := rfl

theorem res_bind_error {α β : Type} (e : Fault) (f : α → Res β) :
    Except.bind (Except.error e : Res α) f = (Except.error e : Res β) := rfl

theorem idx_ok {v : List String} {i : Nat} {s : String} (h : v.get? i = some s) :
    idx v i = .ok s := by
  unfold idx
  rw [h]

theorem idx_lt {v : List String} {i : Nat} (h : i < v.length) :
    ∃ s, idx v i = .ok s := by
  cases hg : v.get? i with
  | none =>
    exact absurd (List.get?_eq_none.mp hg) (by omega)
  | some s => exact ⟨s, idx_ok hg⟩

theorem string_mk_data (s : String) : String.mk s.data = s := by
  cases s
  rfl

theorem hasChar_false_splitCharL {c : Char} {l : List Char} (h : hasChar c l = false) :
    splitCharL c l = [l] := by
  induction l with
  | nil => rfl
  | cons x xs ih =>
    by_cases hx : x = c
    · rw [hasChar, if_pos hx] at h
      cases h
    · rw [hasChar, if_neg hx] at h
      simp [splitCharL, if_neg hx, ih h]

theorem idx_congr {v1 v2 : List String} {i : Nat} (h : v1.get? i = v2.get? i) :
    idx v1 i = idx v2 i := by
  unfold idx
  rw [h]

theorem map_not_idxOut {α β : Type} {f : α → β} {x : Res α}
    (h : ∀ i, x ≠ .error (.idxOut i)) (i : Nat) : x.map f ≠ .error (.idxOut i) := by
  cases x with
  | ok a => intro hc; cases hc
  | error e =>
    intro hc
    have he : e = Fault.idxOut i := by
      have : (Except.error e : Res β) = .error (.idxOut i) := hc
      injection this
    exact h i (by rw [he])

theorem classify_not_idxOut {α : Type} (table : List (String × α)) (dim t : String) (i : Nat) :
    classify table dim t ≠ .error (.idxOut i) := by
  unfold classify
  cases tagLookup table t <;> intro hc
  · injection hc with h
    cases h
  · cases hc

theorem syllableRow_not_idxOut (t : String) (i : Nat) :
    SyllableRow.tryFrom t ≠ .error (.idxOut i) :=
  classify_not_idxOut _ _ _ i

theorem VerbType.ofGroup_not_idxOut (g d : String) (i : Nat) :
    VerbType.ofGroup g d ≠ .error (.idxOut i) := by
  unfold VerbType.ofGroup
  cases harm : tagLookup VerbType.groupTable g with
  | none =>
    intro hc
    injection hc with h
    cases h
  | some arm =>
    cases arm with
    | godan => exact map_not_idxOut (fun j => syllableRow_not_idxOut d j) i
    | ichidan => exact map_not_idxOut (fun j => syllableRow_not_idxOut d j) i
    | const v => intro hc; cases hc

theorem VerbType.parse_general_not_idxOut (s : String) (i : Nat) :
    VerbType.parse_general s ≠ .error (.idxOut i) := by
  unfold VerbType.parse_general
  exact VerbType.ofGroup_not_idxOut _ _ i

theorem nounTryFrom_not_idxOut {v : List String} (h : 1 < v.length) (i : Nat) :
    NounType.tryFrom v ≠ .error (.idxOut i) := by
  obtain ⟨s, hs⟩ := idx_lt h
  simp only [NounType.tryFrom, hs, res_bind_ok]
  exact classify_not_idxOut _ _ _ i

theorem particleTryFrom_not_idxOut {v : List String} (h : 1 < v.length) (i : Nat) :
    ParticleType.tryFrom v ≠ .error (.idxOut i) := by
  obtain ⟨s, hs⟩ := idx_lt h
  simp only [ParticleType.tryFrom, hs, res_bind_ok]
  exact classify_not_idxOut _ _ _ i

theorem adjectiveTryFrom_not_idxOut {v : List String} (h : 0 < v.length) (i : Nat) :
    AdjectiveType.tryFrom v ≠ .error (.idxOut i) := by
  obtain ⟨s, hs⟩ := idx_lt h
  simp only [AdjectiveType.tryFrom, hs, res_bind_ok]
  exact classify_not_idxOut _ _ _ i

theorem verbTryFrom_not_idxOut {v : List String} (h : 4 < v.length) (i : Nat) :
    VerbType.tryFrom v ≠ .error (.idxOut i) := by
  obtain ⟨s4, hs4⟩ := idx_lt h
  obtain ⟨s0, hs0⟩ := idx_lt (show 0 < v.length by omega)
  simp only [VerbType.tryFrom, hs4, hs0, res_bind_ok]
  split_ifs
  · intro hc; cases hc
  · exact VerbType.parse_general_not_idxOut s4 i
  · intro hc
    injection hc with hf
    cases hf

theorem WordClass.dispatch_not_idxOut {v : List String} (h : 4 < v.length) (arm : WordArm)
    (i : Nat) : WordClass.dispatch v arm ≠ .error (.idxOut i) := by
  cases arm with
  | particle => exact map_not_idxOut (fun j => particleTryFrom_not_idxOut (by omega) j) i
  | adjective => exact map_not_idxOut (fun j => adjectiveTryFrom_not_idxOut (by omega) j) i
  | verb => exact map_not_idxOut (fun j => verbTryFrom_not_idxOut (by omega) j) i
  | noun => exact map_not_idxOut (fun j => nounTryFrom_not_idxOut (by omega) j) i
  | const w => intro hc; cases hc

theorem wordClassTryFrom_not_idxOut {v : List String} (h : 4 < v.length) (i : Nat) :
    WordClass.tryFrom v ≠ .error (.idxOut i) := by
  obtain ⟨s0, hs0⟩ := idx_lt (show 0 < v.length by omega)
  simp only [WordClass.tryFrom, hs0, res_bind_ok]
  cases tagLookup WordClass.table s0 with
  | none =>
    intro hc
    injection hc with hf
    cases hf
  | some arm => exact WordClass.dispatch_not_idxOut h arm i

theorem cformTryFrom_not_idxOut {v : List String} (h : 5 < v.length) (i : Nat) :
    ConjungationForm.tryFrom v ≠ .error (.idxOut i) := by
  obtain ⟨s, hs⟩ := idx_lt h
  simp only [ConjungationForm.tryFrom, hs, res_bind_ok]
  exact classify_not_idxOut _ _ _ i

theorem ckindTryFrom_not_idxOut {v : List String} (h : 4 < v.length) (i : Nat) :
    ConjungationKind.tryFrom v ≠ .error (.idxOut i) := by
  obtain ⟨s, hs⟩ := idx_lt h
  simp only [ConjungationKind.tryFrom, hs, res_bind_ok]
  intro hc
  cases hc

theorem tagLookup_not_mem {α : Type} {table : List (String × α)} {t : String}
    (h : t ∉ table.map Prod.fst) : tagLookup table t = none := by
  induction table with
  | nil => rfl
  | cons p rest ih =>
    obtain ⟨k, v⟩ := p
    simp only [List.map_cons, List.mem_cons] at h
    push_neg at h
    unfold tagLookup
    rw [if_neg h.1]
    exact ih h.2

theorem tagLookup_mem {α : Type} {table : List (String × α)} {t : String}
    (h : t ∈ table.map Prod.fst) : ∃ v, tagLookup table t = some v := by
  induction table with
  | nil => cases h
  | cons p rest ih =>
    obtain ⟨k, v⟩ := p
    by_cases hk : t = k
    · exact ⟨v, by unfold tagLookup; rw [if_pos hk]⟩
    · simp only [List.map_cons, List.mem_cons] at h
      rcases h with h | h
      · exact absurd h hk
      · obtain ⟨w, hw⟩ := ih h
        exact ⟨w, by unfold tagLookup; rw [if_neg hk]; exact hw⟩

theorem tagLookup_some {α : Type} {table : List (String × α)} {t : String} {v : α}
    (h : tagLookup table t = some v) : (t, v) ∈ table := by
  induction table with
  | nil => cases h
  | cons p rest ih =>
    obtain ⟨k, w⟩ := p
    unfold tagLookup at h
    by_cases hk : t = k
    · rw [if_pos hk] at h
      injection h with hv
      simp [hk, hv]
    · rw [if_neg hk] at h
      exact List.mem_cons_of_mem _ (ih h)

theorem classify_not_mem {α : Type} {table : List (String × α)} {dim t : String}
    (h : t ∉ table.map Prod.fst) : classify table dim t = .error (.unrec dim t) := by
  unfold classify
  rw [tagLookup_not_mem h]

theorem classify_mem {α : Type} {table : List (String × α)} (dim : String) {t : String}
    (h : t ∈ table.map Prod.fst) : ∃ v, classify table dim t = .ok v := by
  obtain ⟨v, hv⟩ := tagLookup_mem h
  exact ⟨v, by unfold classify; rw [hv]⟩

theorem classify_ok {α : Type} {table : List (String × α)} {dim t : String} {v : α}
    (h : classify table dim t = .ok v) : (t, v) ∈ table := by
  unfold classify at h
  cases hl : tagLookup table t with
  | none => rw [hl] at h; cases h
  | some w =>
    rw [hl] at h
    injection h with hv
    rw [← hv]
    exact tagLookup_some hl

theorem tagLookup_of_mem_nodup {α : Type} {table : List (String × α)} {t : String} {v : α}
    (hn : (table.map Prod.fst).Nodup) (h : (t, v) ∈ table) : tagLookup table t = some v := by
  induction table with
  | nil => cases h
  | cons p rest ih =>
    obtain ⟨k, w⟩ := p
    simp only [List.map_cons, List.nodup_cons] at hn
    rcases List.mem_cons.mp h with hh | hh
    · injection hh with hk hw
      unfold tagLookup
      rw [if_pos hk, hw]
    · have hk : t ≠ k := by
        intro hk
        exact hn.1 (hk ▸ List.mem_map_of_mem Prod.fst hh)
      unfold tagLookup
      rw [if_neg hk]
      exact ih hn.2 hh

theorem classify_ok_of_mem {α : Type} {table : List (String × α)} (dim : String)
    {t : String} {v : α} (hn : (table.map Prod.fst).Nodup) (h : (t, v) ∈ table) :
    classify table dim t = .ok v := by
  unfold classify
  rw [tagLookup_of_mem_nodup hn h]

/-! ## Congruence lemmas: each classifier reads only its fixed
positions of the tuple. -/

theorem particleTryFrom_congr {v1 v2 : List String} (h : v1.get? 1 = v2.get? 1) :
    ParticleType.tryFrom v1 = ParticleType.tryFrom v2 := by
  unfold ParticleType.tryFrom
  rw [idx_congr h]

theorem nounTryFrom_congr {v1 v2 : List String} (h : v1.get? 1 = v2.get? 1) :
    NounType.tryFrom v1 = NounType.tryFrom v2 := by
  unfold NounType.tryFrom
  rw [idx_congr h]

theorem adjectiveTryFrom_congr {v1 v2 : List String} (h : v1.get? 0 = v2.get? 0) :
    AdjectiveType.tryFrom v1 = AdjectiveType.tryFrom v2 := by
  unfold AdjectiveType.tryFrom
  rw [idx_congr h]

theorem cformTryFrom_congr {v1 v2 : List String} (h : v1.get? 5 = v2.get? 5) :
    ConjungationForm.tryFrom v1 = ConjungationForm.tryFrom v2 := by
  unfold ConjungationForm.tryFrom
  rw [idx_congr h]

theorem ckindTryFrom_congr {v1 v2 : List String} (h : v1.get? 4 = v2.get? 4) :
    ConjungationKind.tryFrom v1 = ConjungationKind.tryFrom v2 := by
  unfold ConjungationKind.tryFrom
  rw [idx_congr h]

theorem verbTryFrom_congr {v1 v2 : List String} (h0 : v1.get? 0 = v2.get? 0)
    (h4 : v1.get? 4 = v2.get? 4) : VerbType.tryFrom v1 = VerbType.tryFrom v2 := by
  unfold VerbType.tryFrom
  simp only [idx_congr h0, idx_congr h4]

theorem WordClass.dispatch_congr {v1 v2 : List String} (h0 : v1.get? 0 = v2.get? 0)
    (h1 : v1.get? 1 = v2.get? 1) (h4 : v1.get? 4 = v2.get? 4) (arm : WordArm) :
    WordClass.dispatch v1 arm = WordClass.dispatch v2 arm := by
  cases arm with
  | particle => unfold WordClass.dispatch; rw [particleTryFrom_congr h1]
  | adjective => unfold WordClass.dispatch; rw [adjectiveTryFrom_congr h0]
  | verb => unfold WordClass.dispatch; rw [verbTryFrom_congr h0 h4]
  | noun => unfold WordClass.dispatch; rw [nounTryFrom_congr h1]
  | const w => rfl

theorem wordClassTryFrom_congr {v1 v2 : List String} (h0 : v1.get? 0 = v2.get? 0)
    (h1 : v1.get? 1 = v2.get? 1) (h4 : v1.get? 4 = v2.get? 4) :
    WordClass.tryFrom v1 = WordClass.tryFrom v2 := by
  unfold WordClass.tryFrom
  simp only [idx_congr h0, WordClass.dispatch_congr h0 h1 h4]

theorem str_or_empty_congr {v1 v2 : List String} {pos : Nat}
    (hlen : v1.length = v2.length) (h : v1.get? pos = v2.get? pos) :
    str_or_empty v1 pos = str_or_empty v2 pos := by
  unfold str_or_empty
  rw [hlen, h]

/-! ## Shape of a successful build -/

theorem fromIgo_ok {igo : IgoMorpheme} {mo : Morpheme}
    (h : Morpheme.fromIgo igo = .ok mo) :
    mo.surface = igo.surface ∧ mo.start = igo.start ∧
    mo.basic = str_or_empty (featureSplit igo.feature) 6 ∧
    mo.reading = str_or_empty (featureSplit igo.feature) 9 ∧
    mo.lexeme = str_or_empty (featureSplit igo.feature) 10 ∧
    mo.origin = (if 12 < (featureSplit igo.feature).length then
        Origin.from_string (((featureSplit igo.feature).get? 12).getD "")
      else none) := by
  unfold Morpheme.fromIgo at h
  cases hw : WordClass.tryFrom (featureSplit igo.feature) with
  | error e => rw [hw] at h; cases h
  | ok wc =>
    rw [hw] at h
    cases hf : ConjungationForm.tryFrom (featureSplit igo.feature) with
    | error e => rw [hf] at h; cases h
    | ok f =>
      rw [hf] at h
      cases hk : ConjungationKind.tryFrom (featureSplit igo.feature) with
      | error e => rw [hk] at h; cases h
      | ok k =>
        rw [hk] at h
        injection h with h2
        rw [← h2]
        exact ⟨rfl, rfl, rfl, rfl, rfl, rfl⟩

/-! ## Claim theorems -/

/-- C1 counterexample: a tuple with two fields (positions 4 and 5
absent) does not classify with empty-field defaults; the build
aborts with the index fault at position 5 that models the Rust
out-of-bounds panic. -/
theorem c1_short_tuple_faults :
    Morpheme.fromIgo { surface := "w", feature := "名詞,普通名詞", start := 0 } =
      .error (.idxOut 5) ∧
    (featureSplit "名詞,普通名詞").length = 2 := by
  exact ⟨by decide, by decide⟩

/-- C1 (amended): classification never faults on a missing position
once the tuple has at least 6 fields, so that all consumed positions
0, 1, 4, 5 are present; the metadata positions 6, 9, 10, 12 may
still be absent and default.  (A shorter tuple can abort with an
index fault, see the counterexample.) -/
theorem c1_no_index_fault_from_six_fields (igo : IgoMorpheme)
    (h : 6 ≤ (featureSplit igo.feature).length) (i : Nat) :
    Morpheme.fromIgo igo ≠ .error (.idxOut i) := by
  intro hc
  unfold Morpheme.fromIgo at hc
  cases hw : WordClass.tryFrom (featureSplit igo.feature) with
  | error e =>
    rw [hw] at hc
    have he : e = Fault.idxOut i := by injection hc
    exact @wordClassTryFrom_not_idxOut (featureSplit igo.feature) (by omega) i (by rw [hw, he])
  | ok wc =>
    rw [hw] at hc
    cases hf : ConjungationForm.tryFrom (featureSplit igo.feature) with
    | error e =>
      rw [hf] at hc
      have he : e = Fault.idxOut i := by injection hc
      exact @cformTryFrom_not_idxOut (featureSplit igo.feature) (by omega) i
        (by rw [hf, he])
    | ok f =>
      rw [hf] at hc
      cases hk : ConjungationKind.tryFrom (featureSplit igo.feature) with
      | error e =>
        rw [hk] at hc
        have he : e = Fault.idxOut i := by injection hc
        exact @ckindTryFrom_not_idxOut (featureSplit igo.feature) (by omega) i
          (by rw [hk, he])
      | ok k =>
        rw [hk] at hc
        cases hc

/-- C1 witness: a concrete six-field tuple never produces the
index fault at position 5. -/
theorem c1_no_index_fault_witness :
    Morpheme.fromIgo { surface := "w", feature := "名詞,普通名詞,,,,*", start := 0 } ≠
      .error (.idxOut 5) :=
  c1_no_index_fault_from_six_fields
    { surface := "w", feature := "名詞,普通名詞,,,,*", start := 0 } (by decide) 5

/-- C6: the composite-field splitter is total, tries the hyphen
first, falls back to the secondary delimiter only when no hyphen
occurs, and returns (whole-string, empty-string) when neither
delimiter occurs. -/
theorem c6_split_type_total (inp : String) :
    (strContains inp '-' = true →
      split_type inp =
        ((splitStr inp '-').headD "", ((splitStr inp '-').drop 1).headD "")) ∧
    (strContains inp '-' = false →
      split_type inp =
        ((splitStr inp delimB).headD "", ((splitStr inp delimB).drop 1).headD "")) ∧
    (strContains inp '-' = false → strContains inp delimB = false →
      split_type inp = (inp, "")) := by
  refine ⟨?_, ?_, ?_⟩
  · intro h
    simp [split_type, h]
  · intro h
    simp [split_type, h]
  · intro h1 h2
    have e1 : splitCharL delimB inp.data = [inp.data] := hasChar_false_splitCharL h2
    simp [split_type, h1, splitStr, e1, string_mk_data]

/-- C6 witness: a concrete delimiter-free string splits into itself
and the empty string. -/
theorem c6_split_type_witness : split_type "ab" = ("ab", "") :=
  (c6_split_type_total "ab").2.2 (by decide) (by decide)

/-- C7: the metadata fields at positions 6, 9 and 10 resolve to the
empty string when the tuple is too short, to the tuple entry when
present, and a successful build takes its basic, reading and lexeme
fields from exactly those positions via `str_or_empty`. -/
theorem c7_metadata_defaults :
    (∀ (v : List String) (pos : Nat), v.length ≤ pos → str_or_empty v pos = "") ∧
    (∀ (v : List String) (pos : Nat) (h : pos < v.length),
      str_or_empty v pos = v.get ⟨pos, h⟩) ∧
    (∀ (igo : IgoMorpheme) (mo : Morpheme), Morpheme.fromIgo igo = .ok mo →
      mo.basic = str_or_empty (featureSplit igo.feature) 6 ∧
      mo.reading = str_or_empty (featureSplit igo.feature) 9 ∧
      mo.lexeme = str_or_empty (featureSplit igo.feature) 10) := by
  refine ⟨?_, ?_, ?_⟩
  · intro v pos h
    unfold str_or_empty
    rw [if_neg (by omega)]
  · intro v pos h
    unfold str_or_empty
    rw [if_pos (by omega), List.get?_eq_get h]
    rfl
  · intro igo mo h
    obtain ⟨-, -, hb, hr, hl, -⟩ := fromIgo_ok h
    exact ⟨hb, hr, hl⟩

/-- C7 witness: position 10 of a two-field tuple resolves to the
empty string. -/
theorem c7_metadata_witness : str_or_empty ["名詞", "普通名詞"] 10 = "" :=
  c7_metadata_defaults.1 ["名詞", "普通名詞"] 10 (by decide)

/-- C9: when field 0 carries the auxiliary-verb spelling, the verb
classifier returns `Auxilary` with the raw second half of the
composite in field 4, whatever that field holds: the group and row
tables are never consulted, so no unrecognized-tag error can arise. -/
theorem c9_auxiliary_unvalidated (v : List String) (s4 : String)
    (h0 : v.get? 0 = some "助動詞") (h4 : v.get? 4 = some s4) :
    VerbType.tryFrom v = .ok (.Auxilary (split_type s4).2) := by
  unfold VerbType.tryFrom
  simp only [idx_ok h4, idx_ok h0, res_bind_ok]
  simp

/-- C9 witness: an auxiliary verb with a nonsense conjugation group
still classifies. -/
theorem c9_auxiliary_witness :
    VerbType.tryFrom ["助動詞", "", "", "", "ボグス-ダ行"] =
      .ok (.Auxilary (split_type "ボグス-ダ行").2) :=
  c9_auxiliary_unvalidated ["助動詞", "", "", "", "ボグス-ダ行"] "ボグス-ダ行"
    (by decide) (by decide)

/-- C3 counterexample: a tuple with exactly 13 fields (not more than
13) already has its origin decoded from field 12 — the guard in the
source is `len > 12`, not `len > 13`. -/
theorem c3_origin_at_thirteen_fields :
    Morpheme.fromIgo { surface := "w", feature := "名詞,普通名詞,,,,*,,,,,,,漢", start := 0 } =
      .ok { surface := "w", basic := "", word_class := .Noun .Common,
            conjungation := { kind := .None, form := .None }, origin := some .China,
            reading := "", lexeme := "", start := 0 } ∧
    (featureSplit "名詞,普通名詞,,,,*,,,,,,,漢").length = 13 :=
  ⟨by decide, by decide⟩

/-- C3 (amended): origin is decoded from field 12 exactly when the
tuple has more than 12 fields; with 12 or fewer fields a successful
build carries no origin, and any value other than the China and
Japan markers yields `none` rather than an error. -/
theorem c3_origin_guard_and_tolerance :
    (∀ (igo : IgoMorpheme) (mo : Morpheme), Morpheme.fromIgo igo = .ok mo →
      ((featureSplit igo.feature).length ≤ 12 → mo.origin = none) ∧
      (12 < (featureSplit igo.feature).length →
        mo.origin = Origin.from_string (((featureSplit igo.feature).get? 12).getD ""))) ∧
    (∀ s : String, s ≠ "漢" → s ≠ "和" → Origin.from_string s = none) := by
  constructor
  · intro igo mo h
    obtain ⟨-, -, -, -, -, ho⟩ := fromIgo_ok h
    constructor
    · intro hlen
      rw [ho, if_neg (by omega)]
    · intro hlen
      rw [ho, if_pos hlen]
  · intro s h1 h2
    unfold Origin.from_string
    exact tagLookup_not_mem (by simp [Origin.table, h1, h2])

/-- C3 witness: an unrecognized origin marker decodes to no origin. -/
theorem c3_origin_witness : Origin.from_string "独" = none :=
  c3_origin_guard_and_tolerance.2 "独" (by decide) (by decide)

/-- C4 counterexample: the noun-subtype classifier accepts the
suffix spelling in field 1 and returns the `Suffix` variant, which
is outside the claimed set {Common, Proper, Numeral}, with no
unrecognized-tag error. -/
theorem c4_noun_suffix_variant :
    NounType.tryFrom ["名詞", "接尾"] = .ok .Suffix ∧
    (NounType.Suffix ≠ .Common ∧ NounType.Suffix ≠ .Proper ∧ NounType.Suffix ≠ .Numeral) :=
  ⟨by decide, by decide⟩

/-- C4 (amended): the noun-subtype classifier maps field 1 into
exactly {Common, Proper, Numeral, Suffix, Jodoushi}: each of the six
known spellings (two alias to Numeral) returns its variant, and any
field-1 value outside the spelling table fails with the
unrecognized-tag error of the noun-subtype dimension carrying the
offending tag. -/
theorem c4_noun_subtype_table (v : List String) (s : String) (h : v.get? 1 = some s) :
    (s = "普通名詞" → NounType.tryFrom v = .ok .Common) ∧
    (s = "固有名詞" → NounType.tryFrom v = .ok .Proper) ∧
    (s = "数詞" ∨ s = "数" → NounType.tryFrom v = .ok .Numeral) ∧
    (s = "接尾" → NounType.tryFrom v = .ok .Suffix) ∧
    (s = "助動詞語幹" → NounType.tryFrom v = .ok .Jodoushi) ∧
    (s ∉ NounType.table.map Prod.fst →
      NounType.tryFrom v = .error (.unrec "Nountype not found" s)) := by
  have ht : NounType.tryFrom v = NounType.ofTag s := by
    unfold NounType.tryFrom
    rw [idx_ok h, res_bind_ok]
  refine ⟨?_, ?_, ?_, ?_, ?_, ?_⟩ <;> rw [ht]
  · rintro rfl
    decide
  · rintro rfl
    decide
  · rintro (rfl | rfl) <;> decide
  · rintro rfl
    decide
  · rintro rfl
    decide
  · intro hn
    unfold NounType.ofTag
    exact classify_not_mem hn

/-- C4 witness: the common-noun spelling classifies as `Common`. -/
theorem c4_noun_subtype_witness : NounType.tryFrom ["名詞", "普通名詞"] = .ok .Common :=
  (c4_noun_subtype_table ["名詞", "普通名詞"] "普通名詞" (by decide)).1 rfl

theorem cform_ofTag_policy (t : String) :
    (t ∉ ConjungationForm.table.map Prod.fst →
      ConjungationForm.ofTag t = .error (.unrec "conjungation form not found" t)) ∧
    (t ∈ ConjungationForm.table.map Prod.fst → ∃ f, ConjungationForm.ofTag t = .ok f) ∧
    (ConjungationForm.ofTag t = .ok .None ↔ t = "*" ∨ t = "意志推量形") := by
  refine ⟨?_, ?_, ?_, ?_⟩
  · intro hn
    unfold ConjungationForm.ofTag
    exact classify_not_mem hn
  · intro hm
    unfold ConjungationForm.ofTag
    exact classify_mem _ hm
  · intro hok
    have hmem : (t, ConjungationForm.None) ∈ ConjungationForm.table :=
      classify_ok (by unfold ConjungationForm.ofTag at hok; exact hok)
    simp [ConjungationForm.table, Prod.ext_iff] at hmem
    tauto
  · rintro (rfl | rfl) <;> decide

/-- C5: conjugation-form decoding of the first half of field 5
rejects every tag outside its spelling table with the
unrecognized-tag error, accepts every tag in the table, and returns
the `None` form exactly for the placeholder star and the one
deliberately normalized volitional marker — no other tag is silently
defaulted to `None`. -/
theorem c5_conjugation_form_policy (v : List String) (s : String) (h : v.get? 5 = some s) :
    ((split_type s).1 ∉ ConjungationForm.table.map Prod.fst →
      ConjungationForm.tryFrom v =
        .error (.unrec "conjungation form not found" (split_type s).1)) ∧
    ((split_type s).1 ∈ ConjungationForm.table.map Prod.fst →
      ∃ f, ConjungationForm.tryFrom v = .ok f) ∧
    (ConjungationForm.tryFrom v = .ok .None ↔
      (split_type s).1 = "*" ∨ (split_type s).1 = "意志推量形") := by
  have ht : ConjungationForm.tryFrom v = ConjungationForm.ofTag (split_type s).1 := by
    unfold ConjungationForm.tryFrom
    rw [idx_ok h, res_bind_ok]
  rw [ht]
  exact cform_ofTag_policy (split_type s).1

/-- C5 witness: the volitional marker in field 5 normalizes to the
`None` form instead of being rejected. -/
theorem c5_conjugation_form_witness :
    ConjungationForm.tryFrom ["", "", "", "", "", "意志推量形-一般"] = .ok .None :=
  (c5_conjugation_form_policy ["", "", "", "", "", "意志推量形-一般"] "意志推量形-一般"
    (by decide)).2.2.mpr (Or.inr (by decide))

/-- The five conjugation-group spellings aliased to the Godan arm. -/
def godanSpellings : List String := ["五段", "文語上二段", "文語四段", "文語下二段", "上二段"]

/-- The three conjugation-group spellings aliased to the Ichidan arm. -/
def ichidanSpellings : List String := ["一段", "上一段", "下一段"]

theorem godan_lookup {g : String} (h : g ∈ godanSpellings) :
    tagLookup VerbType.groupTable g = some .godan := by
  simp only [godanSpellings, List.mem_cons, List.not_mem_nil, or_false] at h
  rcases h with rfl | rfl | rfl | rfl | rfl <;> decide

theorem ichidan_lookup {g : String} (h : g ∈ ichidanSpellings) :
    tagLookup VerbType.groupTable g = some .ichidan := by
  simp only [ichidanSpellings, List.mem_cons, List.not_mem_nil, or_false] at h
  rcases h with rfl | rfl | rfl <;> decide

theorem VerbType.ofGroup_godan {g : String} (h : g ∈ godanSpellings) (d : String) :
    VerbType.ofGroup g d = (SyllableRow.tryFrom d).map VerbType.Godan := by
  unfold VerbType.ofGroup
  rw [godan_lookup h]

theorem VerbType.ofGroup_ichidan {g : String} (h : g ∈ ichidanSpellings) (d : String) :
    VerbType.ofGroup g d = (SyllableRow.tryFrom d).map VerbType.Ichidan := by
  unfold VerbType.ofGroup
  rw [ichidan_lookup h]

theorem VerbType.ofGroup_range (g d : String) (t : VerbType)
    (h : VerbType.ofGroup g d = .ok t) :
    (∃ r, t = .Godan r) ∨ (∃ r, t = .Ichidan r) ∨ t = .Suru ∨ t = .Kuru ∨
      t = .IrregRu ∨ t = .IrregNu ∨ t = .IrrWrittenLang := by
  unfold VerbType.ofGroup at h
  cases hl : tagLookup VerbType.groupTable g with
  | none => rw [hl] at h; cases h
  | some arm =>
    rw [hl] at h
    cases arm with
    | godan =>
      cases hr : SyllableRow.tryFrom d with
      | error e => rw [hr] at h; simp only [Except.map] at h; cases h
      | ok r =>
        rw [hr] at h
        simp only [Except.map] at h
        injection h with hv
        exact Or.inl ⟨r, hv.symm⟩
    | ichidan =>
      cases hr : SyllableRow.tryFrom d with
      | error e => rw [hr] at h; simp only [Except.map] at h; cases h
      | ok r =>
        rw [hr] at h
        simp only [Except.map] at h
        injection h with hv
        exact Or.inr (Or.inl ⟨r, hv.symm⟩)
    | const v0 =>
      injection h with hv
      subst hv
      have hmem := tagLookup_some hl
      simp [VerbType.groupTable, Prod.ext_iff] at hmem
      rcases hmem with hc | hc | hc | hc | hc | hc | hc | hc | hc <;> rw [hc.2] <;> simp

/-- The output set the specification claims for the verb-subtype
classifier, written from the words of the spec for comparison with
the embedded code: Auxiliary, Godan, Ichidan, Suru, Kuru, IrregRu
and IrregNu only. -/
def inClaimedC2Set : VerbType → Bool
  | .Auxilary _ => true
  | .Godan _ => true
  | .Ichidan _ => true
  | .Suru => true
  | .Kuru => true
  | .IrregRu => true
  | .IrregNu => true
  | _ => false

/-- C2 counterexample: the claimed output set of the verb-subtype
classifier misses a value: the written-language irregular spelling
in field 4 classifies as `IrrWrittenLang`, which is none of
Auxiliary, Godan, Ichidan, Suru, Kuru, IrregRu, IrregNu. -/
theorem c2_written_language_verb_outside_set :
    VerbType.tryFrom ["動詞", "", "", "", "文語カ行変格"] = .ok .IrrWrittenLang ∧
    inClaimedC2Set .IrrWrittenLang = false :=
  ⟨by decide, by decide⟩

/-- C2 (amended): the verb-subtype classifier only produces values in
{Auxiliary, Godan, Ichidan, Suru, Kuru, IrregRu, IrregNu,
IrrWrittenLang} (never `IchidanEruConjungation`); and when the first
composite half of field 4 is a Godan or Ichidan group spelling, the
result is exactly the syllable-row classification of the second half
mapped into that group, so a row that fails to resolve propagates
its unrecognized-tag error even though the group resolved. -/
theorem c2_verb_subtype_range_and_row :
    (∀ (v : List String) (t : VerbType), VerbType.tryFrom v = .ok t →
      (∃ s, t = .Auxilary s) ∨ (∃ r, t = .Godan r) ∨ (∃ r, t = .Ichidan r) ∨
        t = .Suru ∨ t = .Kuru ∨ t = .IrregRu ∨ t = .IrregNu ∨ t = .IrrWrittenLang) ∧
    (∀ g d, g ∈ godanSpellings →
      VerbType.ofGroup g d = (SyllableRow.tryFrom d).map VerbType.Godan) ∧
    (∀ g d, g ∈ ichidanSpellings →
      VerbType.ofGroup g d = (SyllableRow.tryFrom d).map VerbType.Ichidan) ∧
    (∀ g d e, (g ∈ godanSpellings ∨ g ∈ ichidanSpellings) →
      SyllableRow.tryFrom d = .error e → VerbType.ofGroup g d = .error e) := by
  refine ⟨?_, ?_, ?_, ?_⟩
  · intro v t h
    unfold VerbType.tryFrom at h
    cases h4 : idx v 4 with
    | error e => rw [h4, res_bind_error] at h; cases h
    | ok s4 =>
      rw [h4] at h
      simp only [res_bind_ok] at h
      cases h0 : idx v 0 with
      | error e => rw [h0, res_bind_error] at h; cases h
      | ok s0 =>
        rw [h0] at h
        simp only [res_bind_ok] at h
        split_ifs at h
        · injection h with hv
          exact Or.inl ⟨_, hv.symm⟩
        · unfold VerbType.parse_general at h
          exact Or.inr (VerbType.ofGroup_range _ _ _ h)
  · intro g d h
    exact VerbType.ofGroup_godan h d
  · intro g d h
    exact VerbType.ofGroup_ichidan h d
  · rintro g d e (h | h) hrow
    · rw [VerbType.ofGroup_godan h d, hrow]
      rfl
    · rw [VerbType.ofGroup_ichidan h d, hrow]
      rfl

/-- C2 witness: a Godan group spelling with an unresolvable row is
exactly the mapped row failure, hence an unrecognized-tag error. -/
theorem c2_verb_subtype_witness :
    VerbType.ofGroup "五段" "ボグス" = .error (.unrec "Syllable ending not found" "ボグス") :=
  c2_verb_subtype_range_and_row.2.2.2 "五段" "ボグス" (.unrec "Syllable ending not found" "ボグス")
    (Or.inl (by decide)) (by decide)

/-- C8 counterexample: the two adjective word-class spellings both
route to `Adjective`, but the subtype classifier re-reads field 0,
so two tuples differing only in that aliased spelling classify to
different variants `Adjective I` and `Adjective Na`. -/
theorem c8_adjective_alias_differs :
    WordClass.tryFrom ["形容詞"] = .ok (.Adjective .I) ∧
    WordClass.tryFrom ["形状詞"] = .ok (.Adjective .Na) ∧
    WordClass.Adjective .I ≠ WordClass.Adjective .Na :=
  ⟨by decide, by decide, by decide⟩

/-- C8 (amended): aliasing holds for spellings collapsed inside one
leaf classifier — the Godan and Ichidan group spellings, the paired
written-language spellings for Suru, IrregRu, IrregNu and
IrrWrittenLang, the two numeral spellings, and the two symbol
word-class spellings all produce identical variants; it fails for
the adjective (and verb) word-class pairs, whose subtype re-reads
field 0 (see the counterexample). -/
theorem c8_alias_groups :
    (∀ g1 g2 d, g1 ∈ godanSpellings → g2 ∈ godanSpellings →
      VerbType.ofGroup g1 d = VerbType.ofGroup g2 d) ∧
    (∀ g1 g2 d, g1 ∈ ichidanSpellings → g2 ∈ ichidanSpellings →
      VerbType.ofGroup g1 d = VerbType.ofGroup g2 d) ∧
    (∀ d1 d2, VerbType.ofGroup "サ行変格" d1 = VerbType.ofGroup "文語サ行変格" d2) ∧
    (∀ d1 d2, VerbType.ofGroup "ラ行変格" d1 = VerbType.ofGroup "文語ラ行変格" d2) ∧
    (∀ d1 d2, VerbType.ofGroup "ナ行変格" d1 = VerbType.ofGroup "文語ナ行変格" d2) ∧
    (∀ d1 d2, VerbType.ofGroup "文語カ行変格" d1 = VerbType.ofGroup "文語下一段" d2) ∧
    NounType.ofTag "数詞" = NounType.ofTag "数" ∧
    (∀ v1 v2 : List String, v1.get? 0 = some "補助記号" → v2.get? 0 = some "記号" →
      WordClass.tryFrom v1 = .ok .Symbol ∧ WordClass.tryFrom v2 = .ok .Symbol) := by
  refine ⟨?_, ?_, ?_, ?_, ?_, ?_, by decide, ?_⟩
  · intro g1 g2 d h1 h2
    rw [VerbType.ofGroup_godan h1 d, VerbType.ofGroup_godan h2 d]
  · intro g1 g2 d h1 h2
    rw [VerbType.ofGroup_ichidan h1 d, VerbType.ofGroup_ichidan h2 d]
  · intro d1 d2
    unfold VerbType.ofGroup
    rw [show tagLookup VerbType.groupTable "サ行変格" = some (.const .Suru) from by decide,
      show tagLookup VerbType.groupTable "文語サ行変格" = some (.const .Suru) from by decide]
  · intro d1 d2
    unfold VerbType.ofGroup
    rw [show tagLookup VerbType.groupTable "ラ行変格" = some (.const .IrregRu) from by decide,
      show tagLookup VerbType.groupTable "文語ラ行変格" = some (.const .IrregRu) from by decide]
  · intro d1 d2
    unfold VerbType.ofGroup
    rw [show tagLookup VerbType.groupTable "ナ行変格" = some (.const .IrregNu) from by decide,
      show tagLookup VerbType.groupTable "文語ナ行変格" = some (.const .IrregNu) from by decide]
  · intro d1 d2
    unfold VerbType.ofGroup
    rw [show tagLookup VerbType.groupTable "文語カ行変格" = some (.const .IrrWrittenLang) from
        by decide,
      show tagLookup VerbType.groupTable "文語下一段" = some (.const .IrrWrittenLang) from
        by decide]
  · intro v1 v2 h1 h2
    constructor
    · unfold WordClass.tryFrom
      simp only [idx_ok h1, res_bind_ok]
      rw [show tagLookup WordClass.table "補助記号" = some (.const .Symbol) from by decide]
      rfl
    · unfold WordClass.tryFrom
      simp only [idx_ok h2, res_bind_ok]
      rw [show tagLookup WordClass.table "記号" = some (.const .Symbol) from by decide]
      rfl

/-- C8 witness: two Godan group spellings classify a concrete row
identically. -/
theorem c8_alias_witness :
    VerbType.ofGroup "五段" "カ行" = VerbType.ofGroup "文語四段" "カ行" :=
  c8_alias_groups.1 "五段" "文語四段" "カ行" (by decide) (by decide)

/-- C10: two igo morphemes with the same surface and start whose
feature tuples have equal length and agree on positions 0, 1, 4, 5,
6, 9, 10 and 12 classify to the same result; the remaining positions
never influence the decoded morpheme. -/
theorem c10_noninterference (m1 m2 : IgoMorpheme)
    (hs : m1.surface = m2.surface) (hst : m1.start = m2.start)
    (hlen : (featureSplit m1.feature).length = (featureSplit m2.feature).length)
    (h0 : (featureSplit m1.feature).get? 0 = (featureSplit m2.feature).get? 0)
    (h1 : (featureSplit m1.feature).get? 1 = (featureSplit m2.feature).get? 1)
    (h4 : (featureSplit m1.feature).get? 4 = (featureSplit m2.feature).get? 4)
    (h5 : (featureSplit m1.feature).get? 5 = (featureSplit m2.feature).get? 5)
    (h6 : (featureSplit m1.feature).get? 6 = (featureSplit m2.feature).get? 6)
    (h9 : (featureSplit m1.feature).get? 9 = (featureSplit m2.feature).get? 9)
    (h10 : (featureSplit m1.feature).get? 10 = (featureSplit m2.feature).get? 10)
    (h12 : (featureSplit m1.feature).get? 12 = (featureSplit m2.feature).get? 12) :
    Morpheme.fromIgo m1 = Morpheme.fromIgo m2 := by
  have ewc := wordClassTryFrom_congr h0 h1 h4
  have eform := cformTryFrom_congr h5
  have ekind := ckindTryFrom_congr h4
  have e6 := @str_or_empty_congr _ _ 6 hlen h6
  have e9 := @str_or_empty_congr _ _ 9 hlen h9
  have e10 := @str_or_empty_congr _ _ 10 hlen h10
  unfold Morpheme.fromIgo
  simp only [ewc, eform, ekind, e6, e9, e10, hlen, h12, hs, hst]

/-- C10 witness: two concrete tuples differing only at the unused
positions 2 and 3 decode identically. -/
theorem c10_noninterference_witness :
    Morpheme.fromIgo { surface := "w", feature := "名詞,普通名詞,甲,,,*", start := 1 } =
      Morpheme.fromIgo { surface := "w", feature := "名詞,普通名詞,乙,丙,,*", start := 1 } :=
  c10_noninterference
    { surface := "w", feature := "名詞,普通名詞,甲,,,*", start := 1 }
    { surface := "w", feature := "名詞,普通名詞,乙,丙,,*", start := 1 }
    rfl rfl (by decide) (by decide) (by decide) (by decide) (by decide) (by decide)
    (by decide) (by decide) (by decide)

end IgoUnidic
